import Mathlib

/-!
A shallow embedding in Lean 4 of the detection-and-grouping engine of the
aiops-anomaly-detection repository, together with proofs about it.

Sources embedded:
* `app/core/config.py` — the `Settings` constants used by the engine;
* `app/detection/baseline.py` — `ZScoreDetector.predict` (after `fit`) and
  `MovingAverageDetector.predict`;
* `app/detection/engine.py` — `AnomalyDetectionEngine`:
  `get_contamination_by_sensitivity`, `detect`, `_empty_result`,
  `group_anomalies` and `_calculate_priority`.

Conventions of the embedding:
* floats are modelled as exact rationals (`ℚ`); `datetime` timestamps are
  modelled as rationals counting seconds, so `(ts - end_time).total_seconds()`
  becomes plain subtraction;
* `numpy.std` / pandas rolling `.std()` take a real square root, which has no
  computable exact representative on `ℚ`.  The detectors are therefore
  parametrised by a function `sqrtf : ℚ → ℚ` standing for the square root; the
  theorems below use only the property `sqrtf 0 = 0`, which the real square
  root satisfies.  Everything around the square root (means, variances, the
  degenerate-`std` branches, thresholding, clipping) is embedded exactly;
* the six scorers registered in `AnomalyDetectionEngine.methods` include four
  that call external ML libraries (`isolation-forest`, `lof`, `prophet`,
  `dtai-auto`).  `detect` is therefore parametrised by a scorer table
  `scorerFor : String → ℚ → List ℚ → Option (List Bool × List ℚ)`; a `none`
  result models the scorer raising an exception, which `detect` catches
  (engine.py lines 72-77);
* `Python`'s `round(x, n)` rounds half to even; `roundHalfEven` below models
  it exactly on rationals;
* `list.sort(key=..., reverse=True)` is Python's stable sort taken
  descending by key; it is embedded as `List.mergeSort` with the total
  boolean relation `eventLE a b = decide (b.priority ≤ a.priority)`, which
  has the same semantics (descending, ties keep original order).
The wall-clock `detection_time_ms` field and the log statements are not
modelled: no claim is about them.
-/

namespace AIOps

/-! ### Settings (app/core/config.py) -/

namespace settings

def default_contamination : ℚ := 1/100
def default_window_size : ℕ := 10
def z_score_threshold : ℚ := 3
def anomaly_grouping_window_seconds : ℚ := 300
def sensitivity_low : ℚ := 5/100
def sensitivity_medium : ℚ := 1/100
def sensitivity_high : ℚ := 5/1000

end settings

/-! ### Python `round(x, 3)` on rationals -/

/-- Python's `round` to an integer: round half to even (banker's rounding). -/
def roundHalfEven (q : ℚ) : ℤ :=
  if q - ⌊q⌋ = 1/2 then (if ⌊q⌋ % 2 = 0 then ⌊q⌋ else ⌊q⌋ + 1) else round q

/-- Python's `round(q, 3)`. -/
def round3 (q : ℚ) : ℚ := (roundHalfEven (1000 * q) : ℚ) / 1000

theorem floor_le_roundHalfEven (q : ℚ) : ⌊q⌋ ≤ roundHalfEven q := by
  unfold roundHalfEven
  split
  · split
    · exact le_refl _
    · exact le_of_lt (lt_add_one _)
  · rw [round_eq]
    exact Int.floor_le_floor (by linarith)

theorem roundHalfEven_le_ceil (q : ℚ) : roundHalfEven q ≤ ⌈q⌉ := by
  unfold roundHalfEven
  rcases eq_or_ne (q - ⌊q⌋) (1/2) with hhalf | hhalf
  · rw [if_pos hhalf]
    have hlt : (⌊q⌋ : ℚ) < q := by linarith
    have h1 : ⌊q⌋ < ⌈q⌉ := Int.lt_ceil.mpr hlt
    split
    · exact le_of_lt h1
    · omega
  · rw [if_neg hhalf, round_eq]
    have hc := Int.le_ceil q
    have h2 : q + 1/2 ≤ (⌈q⌉ : ℚ) + 1/2 := by linarith
    have h3 : ⌊q + 1/2⌋ ≤ ⌊(⌈q⌉ : ℚ) + 1/2⌋ := Int.floor_le_floor h2
    have h4 : ⌊(⌈q⌉ : ℚ) + 1/2⌋ = ⌈q⌉ := by
      rw [Int.floor_eq_iff]
      constructor <;> norm_num
    omega

theorem round3_nonneg {q : ℚ} (h : 0 ≤ q) : 0 ≤ round3 q := by
  unfold round3
  have h0 : (0 : ℤ) ≤ ⌊1000 * q⌋ := Int.floor_nonneg.mpr (by linarith)
  have h1 : (0 : ℤ) ≤ roundHalfEven (1000 * q) :=
    le_trans h0 (floor_le_roundHalfEven _)
  positivity

theorem round3_le_one {q : ℚ} (h : q ≤ 1) : round3 q ≤ 1 := by
  unfold round3
  have h0 : ⌈(1000 : ℚ) * q⌉ ≤ 1000 := Int.ceil_le.mpr (by push_cast; linarith)
  have h1 : roundHalfEven (1000 * q) ≤ 1000 :=
    le_trans (roundHalfEven_le_ceil _) h0
  have h2 : (roundHalfEven (1000 * q) : ℚ) ≤ 1000 := by exact_mod_cast h1
  linarith

/-! ### Priority (engine.py, `_calculate_priority`) -/

/-- Embedding of `AnomalyDetectionEngine._calculate_priority` (engine.py lines 254-274):
weights 0.5 / 0.3 / 0.2, points capped at 10, duration capped at 600 s,
result rounded to 3 decimal places. -/
def calculate_priority (max_score : ℚ) (points : ℕ) (duration : ℚ) : ℚ :=
  let score_weight : ℚ := 1/2
  let points_weight : ℚ := 3/10
  let duration_weight : ℚ := 1/5
  let score_norm : ℚ := max_score
  let points_norm : ℚ := min ((points : ℚ) / 10) 1
  let duration_norm : ℚ := min (duration / 600) 1
  round3 (score_weight * score_norm + points_weight * points_norm +
          duration_weight * duration_norm)

/-! ### Sensitivity resolver (engine.py, `get_contamination_by_sensitivity`) -/

/-- Embedding of `AnomalyDetectionEngine.get_contamination_by_sensitivity`
(engine.py lines 28-35): a three-entry map with the configured default as
fallback. -/
def get_contamination_by_sensitivity (sensitivity : String) : ℚ :=
  if sensitivity = "low" then settings.sensitivity_low
  else if sensitivity = "medium" then settings.sensitivity_medium
  else if sensitivity = "high" then settings.sensitivity_high
  else settings.default_contamination

/-! ### Baseline scorers (app/detection/baseline.py) -/

/-- Embedding of `np.mean` on a list of rationals (0 on the empty list, where numpy would
produce NaN; no claim depends on the empty case). -/
def listMean (l : List ℚ) : ℚ := l.sum / l.length

/-- Population variance (`np.std` squared, `ddof = 0`). -/
def listVarP (l : List ℚ) : ℚ :=
  ((l.map (fun x => (x - listMean l) ^ 2)).sum) / l.length

/-- Sample variance (pandas rolling `.std()` squared, `ddof = 1`). -/
def listVarS (l : List ℚ) : ℚ :=
  ((l.map (fun x => (x - listMean l) ^ 2)).sum) / ((l.length : ℚ) - 1)

/-- Embedding of `np.clip(q, 0, 1)`. -/
def clip01 (q : ℚ) : ℚ := min (max q 0) 1

/-- Embedding of `ZScoreDetector.fit_predict` (baseline.py lines 16-42), parametrised by
the square-root function `sqrtf` used for the standard deviation:
`std = 0` yields all-normal; otherwise flag where `|x - mean|/std > threshold`
and score `clip(z / (2·threshold), 0, 1)`. -/
def zscore_predict (sqrtf : ℚ → ℚ) (threshold : ℚ) (X : List ℚ) :
    List Bool × List ℚ :=
  let mean := listMean X
  let std := sqrtf (listVarP X)
  if std = 0 then
    (List.replicate X.length false, List.replicate X.length (0 : ℚ))
  else
    let zs := X.map (fun x => |x - mean| / std)
    (zs.map (fun z => decide (z > threshold)),
     zs.map (fun z => clip01 (z / (threshold * 2))))

/-- The trailing window pandas `rolling(window=w)` sees at index `i`
(rows `i - w + 1 .. i`). -/
def maWindow (w : ℕ) (X : List ℚ) (i : ℕ) : List ℚ :=
  (X.drop (i + 1 - w)).take w

/-- The z-score used by `MovingAverageDetector.predict` at index `i`, after
the forced zeroing `z_scores[:window_size] = 0` (baseline.py line 71): zero
below `w`, otherwise `|x_i - rolling_mean| / rolling_std` with a rolling std
of 0 replaced by `1e-6` (baseline.py line 65). -/
def maZ (sqrtf : ℚ → ℚ) (w : ℕ) (X : List ℚ) (i : ℕ) : ℚ :=
  if i < w then 0
  else
    let win := maWindow w X i
    let std0 := sqrtf (listVarS win)
    let std := if std0 = 0 then 1/1000000 else std0
    |X.getD i 0 - listMean win| / std

/-- Embedding of `MovingAverageDetector.predict` (baseline.py lines 52-76): all-normal
when the series is shorter than the window, otherwise threshold and clip the
rolling z-scores. -/
def moving_average_predict (sqrtf : ℚ → ℚ) (w : ℕ) (threshold : ℚ)
    (X : List ℚ) : List Bool × List ℚ :=
  if X.length < w then
    (List.replicate X.length false, List.replicate X.length (0 : ℚ))
  else
    ((List.range X.length).map (fun i => decide (maZ sqrtf w X i > threshold)),
     (List.range X.length).map (fun i => clip01 (maZ sqrtf w X i / (threshold * 2))))

/-! ### Detection orchestrator (engine.py, `detect` / `_empty_result`) -/

/-- The result dictionary built by `AnomalyDetectionEngine.detect`
(engine.py lines 82-90), without the wall-clock `detection_time_ms` field. -/
structure DetectResult where
  method : String
  anomalies : List Bool
  scores : List ℚ
  timestamps : List ℚ
  values : List ℚ
  anomaly_count : ℕ
deriving DecidableEq, Repr

/-- Embedding of `AnomalyDetectionEngine._empty_result` (engine.py lines 153-163). -/
def empty_result (length : ℕ) : DetectResult :=
  { method := "none"
    anomalies := List.replicate length false
    scores := List.replicate length (0 : ℚ)
    timestamps := []
    values := []
    anomaly_count := 0 }

/-- The keys of `AnomalyDetectionEngine.methods` (engine.py lines 19-26). -/
def detection_methods : List String :=
  ["z-score", "moving-average", "isolation-forest", "lof", "prophet", "dtai-auto"]

/-- Method resolution in `detect` (engine.py lines 65-67): an unknown method
name is replaced by "isolation-forest". -/
def resolve_method (method : String) : String :=
  if detection_methods.contains method then method else "isolation-forest"

/-- Embedding of `AnomalyDetectionEngine.detect` (engine.py lines 37-98), parametrised by
the scorer table `scorerFor` (method name and contamination to a scorer);
`scorerFor m c values = none` models the scorer raising, which the engine
catches by substituting all-false flags and all-zero scores
(engine.py lines 72-77). -/
def detect (scorerFor : String → ℚ → List ℚ → Option (List Bool × List ℚ))
    (timestamps values : List ℚ) (method sensitivity : String) : DetectResult :=
  if values.length = 0 then empty_result 0
  else
    let m := resolve_method method
    let contamination := get_contamination_by_sensitivity sensitivity
    let res := match scorerFor m contamination values with
      | some r => r
      | none => (List.replicate values.length false,
                 List.replicate values.length (0 : ℚ))
    { method := m
      anomalies := res.1
      scores := res.2
      timestamps := timestamps
      values := values
      anomaly_count := res.1.count true }

/-! ### Event grouping (engine.py, `group_anomalies`) -/

/-- The event dictionary built by `group_anomalies`; `duration_seconds` and
`priority` are filled in by the post-scan pass (engine.py lines 236-245). -/
structure Event where
  start_time : ℚ
  end_time : ℚ
  metric : String
  max_score : ℚ
  anomaly_points : ℕ
  peak_value : ℚ
  timestamps : List ℚ
  values : List ℚ
  duration_seconds : ℚ
  priority : ℚ
deriving DecidableEq, Repr

/-- A freshly opened event (engine.py lines 193-202 and 220-229). -/
def newEvent (metric : String) (ts score val : ℚ) : Event :=
  { start_time := ts
    end_time := ts
    metric := metric
    max_score := score
    anomaly_points := 1
    peak_value := val
    timestamps := [ts]
    values := [val]
    duration_seconds := 0
    priority := 0 }

/-- Extending the open event (engine.py lines 207-216).  Note the faithful
order of operations: `max_score` is updated first, and the peak-value guard
`score > current_event["max_score"]` then compares against the *updated*
maximum. -/
def extendEvent (e : Event) (ts score val : ℚ) : Event :=
  let e1 : Event := { e with
    end_time := ts
    max_score := max e.max_score score
    anomaly_points := e.anomaly_points + 1
    timestamps := e.timestamps ++ [ts]
    values := e.values ++ [val] }
  if score > e1.max_score then { e1 with peak_value := val } else e1

/-- One iteration of the scan loop of `group_anomalies`
(engine.py lines 184-229), acting on the state
`(closed events so far, optional open event)`. -/
def groupStep (window : ℚ) (metric : String)
    (st : List Event × Option Event) (p : ℚ × Bool × ℚ × ℚ) :
    List Event × Option Event :=
  match st, p with
  | (events, cur), (ts, is_anom, score, val) =>
    if is_anom = false then
      match cur with
      | some e => (events ++ [e], none)
      | none => (events, none)
    else
      match cur with
      | none => (events, some (newEvent metric ts score val))
      | some e =>
        if ts - e.end_time ≤ window then
          (events, some (extendEvent e ts score val))
        else
          (events ++ [e], some (newEvent metric ts score val))

/-- The duration/priority pass over a closed event
(engine.py lines 236-245). -/
def finalizeEvent (e : Event) : Event :=
  let d := e.end_time - e.start_time
  { e with
    duration_seconds := d
    priority := calculate_priority e.max_score e.anomaly_points d }

/-- The events produced by the scan of `group_anomalies` in chronological
(construction) order, with durations and priorities filled in but before the
final sort. -/
def raw_events (window : ℚ) (timestamps : List ℚ) (anomalies : List Bool)
    (scores values : List ℚ) (metric : String) : List Event :=
  let pts := timestamps.zip (anomalies.zip (scores.zip values))
  let st := pts.foldl (groupStep window metric) ([], none)
  (match st.2 with
   | some e => st.1 ++ [e]
   | none => st.1).map finalizeEvent

/-- The boolean comparison realised by
`events.sort(key=lambda x: x["priority"], reverse=True)`: stable,
descending by priority. -/
def eventLE (a b : Event) : Bool := decide (b.priority ≤ a.priority)

/-- Embedding of `AnomalyDetectionEngine.group_anomalies` (engine.py lines 165-252). -/
def group_anomalies (window : ℚ) (timestamps : List ℚ)
    (anomalies : List Bool) (scores values : List ℚ) (metric : String) :
    List Event :=
  if !(anomalies.any id) then []
  else
    (raw_events window timestamps anomalies scores values metric).mergeSort eventLE

/-! ### Claim theorems (first group) -/

/-- C3: the priority function equals
`0.5·max_score + 0.3·min(point_count/10, 1) + 0.2·min(duration/600, 1)`
rounded to 3 decimal places; `priority(1.0, 10, 600) = 1.0`;
`priority(0.0, 0, 0) = 0.0`; and for `max_score ∈ [0,1]`, `point_count ≥ 0`
and `duration ≥ 0` the result lies in `[0,1]`. -/
theorem C3_priority_formula :
    (∀ (ms : ℚ) (pts : ℕ) (dur : ℚ),
      calculate_priority ms pts dur =
        round3 (1/2 * ms + 3/10 * min ((pts : ℚ) / 10) 1 +
                1/5 * min (dur / 600) 1)) ∧
    calculate_priority 1 10 600 = 1 ∧
    calculate_priority 0 0 0 = 0 ∧
    (∀ (ms : ℚ) (pts : ℕ) (dur : ℚ), 0 ≤ ms → ms ≤ 1 → 0 ≤ dur →
      0 ≤ calculate_priority ms pts dur ∧ calculate_priority ms pts dur ≤ 1) := by
  refine ⟨fun ms pts dur => rfl,
    by unfold calculate_priority round3 roundHalfEven; norm_num,
    by unfold calculate_priority round3 roundHalfEven; norm_num,
    fun ms pts dur h0 h1 h2 => ?_⟩
  unfold calculate_priority
  have hp0 : (0 : ℚ) ≤ min ((pts : ℚ) / 10) 1 :=
    le_min (by positivity) (by norm_num)
  have hp1 : min ((pts : ℚ) / 10) 1 ≤ 1 := min_le_right _ _
  have hd0 : (0 : ℚ) ≤ min (dur / 600) 1 :=
    le_min (by positivity) (by norm_num)
  have hd1 : min (dur / 600) 1 ≤ 1 := min_le_right _ _
  constructor
  · exact round3_nonneg (by nlinarith)
  · exact round3_le_one (by nlinarith)

/-- Witness for C3 at `max_score = 1/2`, `point_count = 3`,
`duration = 30`. -/
theorem C3_priority_formula_witness :
    0 ≤ calculate_priority (1/2) 3 30 ∧ calculate_priority (1/2) 3 30 ≤ 1 :=
  C3_priority_formula.2.2.2 (1/2) 3 30 (by norm_num) (by norm_num) (by norm_num)

/-- C10: any sensitivity string outside low/medium/high resolves to the
configured default contamination, which equals the value mapped to
"medium", so an unknown sensitivity behaves exactly like "medium". -/
theorem C10_unknown_sensitivity_is_medium :
    (∀ s : String, s ∉ (["low", "medium", "high"] : List String) →
      get_contamination_by_sensitivity s = settings.default_contamination) ∧
    settings.default_contamination = settings.sensitivity_medium ∧
    (∀ s : String, s ∉ (["low", "medium", "high"] : List String) →
      get_contamination_by_sensitivity s =
        get_contamination_by_sensitivity "medium") := by
  have hmap : ∀ s : String, s ∉ (["low", "medium", "high"] : List String) →
      get_contamination_by_sensitivity s = settings.default_contamination := by
    intro s hs
    simp only [List.mem_cons, List.not_mem_nil, or_false, not_or] at hs
    obtain ⟨h1, h2, h3⟩ := hs
    unfold get_contamination_by_sensitivity
    rw [if_neg h1, if_neg h2, if_neg h3]
  have hmed : get_contamination_by_sensitivity "medium" =
      settings.sensitivity_medium := by
    simp [get_contamination_by_sensitivity]
  refine ⟨hmap, rfl, fun s hs => ?_⟩
  rw [hmap s hs, hmed]
  rfl

/-- Witness for C10 at the unknown sensitivity string "banana". -/
theorem C10_unknown_sensitivity_is_medium_witness :
    get_contamination_by_sensitivity "banana" = settings.default_contamination :=
  C10_unknown_sensitivity_is_medium.1 "banana" (by simp)

/-- C4: `detect` returns as many per-point flags and scores as input values,
`anomaly_count` counts the true flags, and the empty input yields the empty
outcome with zero points and zero anomalies, without failing. -/
theorem C4_outcome_invariants :
    (∀ (scorerFor : String → ℚ → List ℚ → Option (List Bool × List ℚ))
       (timestamps values : List ℚ) (method sensitivity : String),
      (∀ m c r, scorerFor m c values = some r →
        r.1.length = values.length ∧ r.2.length = values.length) →
      (detect scorerFor timestamps values method sensitivity).anomalies.length =
        values.length ∧
      (detect scorerFor timestamps values method sensitivity).scores.length =
        values.length ∧
      (detect scorerFor timestamps values method sensitivity).anomaly_count =
        (detect scorerFor timestamps values method sensitivity).anomalies.count
          true) ∧
    (∀ (scorerFor : String → ℚ → List ℚ → Option (List Bool × List ℚ))
       (timestamps : List ℚ) (method sensitivity : String),
      detect scorerFor timestamps [] method sensitivity = empty_result 0 ∧
      (empty_result 0).anomalies.length = 0 ∧
      (empty_result 0).anomaly_count = 0) := by
  constructor
  · intro f ts vs method sens hlen
    by_cases h : vs.length = 0
    · have hvs : vs = [] := List.length_eq_zero.mp h
      subst hvs
      simp [detect, empty_result]
    · have hne : vs ≠ [] := fun hv => h (by rw [hv]; rfl)
      cases hsc : f (resolve_method method)
        (get_contamination_by_sensitivity sens) vs with
      | none => simp [detect, hne, hsc]
      | some r =>
        have hr := hlen _ _ r hsc
        simp [detect, hne, hsc, hr.1, hr.2]
  · intro f ts method sens
    exact ⟨by simp [detect, empty_result], by simp [empty_result], rfl⟩

/-- Witness for C4 with a concrete length-preserving scorer table on the
input `[1, 2]`. -/
theorem C4_outcome_invariants_witness :
    (detect (fun _ _ vs => some (vs.map (fun x => decide (x > 0)),
        vs.map (fun _ => (0 : ℚ)))) [0, 60] [1, 2] "z-score"
        "medium").anomalies.length = 2 ∧
    (detect (fun _ _ vs => some (vs.map (fun x => decide (x > 0)),
        vs.map (fun _ => (0 : ℚ)))) [0, 60] [1, 2] "z-score"
        "medium").scores.length = 2 := by
  have h := (C4_outcome_invariants.1
    (fun _ _ vs => some (vs.map (fun x => decide (x > 0)),
      vs.map (fun _ => (0 : ℚ))))
    [0, 60] [1, 2] "z-score" "medium"
    (fun m c r hr => by
      cases hr
      constructor <;> simp))
  exact ⟨h.1, h.2.1⟩

/-- C5: when the selected scorer fails (raises), `detect` recovers with
all-false flags and all-zero scores of the input length instead of
propagating the failure. -/
theorem C5_scorer_failure_recovery :
    ∀ (scorerFor : String → ℚ → List ℚ → Option (List Bool × List ℚ))
      (timestamps values : List ℚ) (method sensitivity : String),
      values ≠ [] →
      scorerFor (resolve_method method)
        (get_contamination_by_sensitivity sensitivity) values = none →
      (detect scorerFor timestamps values method sensitivity).anomalies =
        List.replicate values.length false ∧
      (detect scorerFor timestamps values method sensitivity).scores =
        List.replicate values.length 0 ∧
      (detect scorerFor timestamps values method sensitivity).anomalies.length =
        values.length := by
  intro f ts vs method sens hne hfail
  simp [detect, hne, hfail]

/-- Witness for C5 with an always-failing scorer table on the
input `[1, 2]`. -/
theorem C5_scorer_failure_recovery_witness :
    (detect (fun _ _ _ => none) [0, 60] [1, 2] "z-score" "medium").anomalies =
      List.replicate 2 false ∧
    (detect (fun _ _ _ => none) [0, 60] [1, 2] "z-score" "medium").scores =
      List.replicate 2 0 ∧
    (detect (fun _ _ _ => none) [0, 60] [1, 2] "z-score"
      "medium").anomalies.length = 2 :=
  C5_scorer_failure_recovery (fun _ _ _ => none) [0, 60] [1, 2] "z-score"
    "medium" (by simp) rfl

/-- C6: an unrecognized method name never fails `detect` on non-empty input:
the default "isolation-forest" scorer is substituted and the outcome reports
the substituted name. -/
theorem C6_unknown_method_fallback :
    ∀ (scorerFor : String → ℚ → List ℚ → Option (List Bool × List ℚ))
      (timestamps values : List ℚ) (method sensitivity : String),
      values ≠ [] → method ∉ detection_methods →
      (detect scorerFor timestamps values method sensitivity).method =
        "isolation-forest" ∧
      detect scorerFor timestamps values method sensitivity =
        detect scorerFor timestamps values "isolation-forest" sensitivity := by
  intro f ts vs method sens hne hm
  have hc : detection_methods.contains method = false := by
    simpa [List.contains] using hm
  have hres : resolve_method method = "isolation-forest" := by
    unfold resolve_method
    rw [hc]
    simp
  have hres2 : resolve_method "isolation-forest" = "isolation-forest" := by
    unfold resolve_method
    simp [detection_methods]
  constructor
  · simp [detect, hne, hres]
  · simp [detect, hne, hres, hres2]

/-- Witness for C6 at the unknown method name "quantum" on the
input `[1, 2]`. -/
theorem C6_unknown_method_fallback_witness :
    (detect (fun _ _ _ => none) [0, 60] [1, 2] "quantum" "medium").method =
      "isolation-forest" :=
  (C6_unknown_method_fallback (fun _ _ _ => none) [0, 60] [1, 2] "quantum"
    "medium" (by simp) (by simp [detection_methods])).1

/-! ### Scorer lemmas -/

theorem listMean_replicate (n : ℕ) (c : ℚ) (hn : n ≠ 0) :
    listMean (List.replicate n c) = c := by
  unfold listMean
  rw [List.sum_replicate, List.length_replicate, nsmul_eq_mul]
  exact mul_div_cancel_left₀ c (Nat.cast_ne_zero.mpr hn)

theorem listVarP_replicate (n : ℕ) (c : ℚ) :
    listVarP (List.replicate n c) = 0 := by
  unfold listVarP
  cases n with
  | zero => simp
  | succ m =>
    rw [listMean_replicate _ _ (Nat.succ_ne_zero m), List.map_replicate]
    simp

theorem maZ_replicate (sqrtf : ℚ → ℚ) (w n : ℕ) (c : ℚ) (hw : 0 < w)
    (i : ℕ) (hi : i < n) : maZ sqrtf w (List.replicate n c) i = 0 := by
  unfold maZ
  by_cases h : i < w
  · rw [if_pos h]
  · rw [if_neg h]
    have hwin : maWindow w (List.replicate n c) i = List.replicate w c := by
      unfold maWindow
      rw [List.drop_replicate, List.take_replicate]
      congr 1
      omega
    have hget : (List.replicate n c).getD i 0 = c := by
      rw [List.getD_eq_getElem _ _ (by simpa using hi)]
      exact List.getElem_replicate _ _
    rw [hwin]
    simp only [listMean_replicate w c hw.ne', hget]
    simp

theorem ma_predict_replicate (sqrtf : ℚ → ℚ) (w : ℕ) (thr : ℚ)
    (hthr : 0 ≤ thr) (hw : 0 < w) (n : ℕ) (c : ℚ) :
    moving_average_predict sqrtf w thr (List.replicate n c) =
      (List.replicate n false, List.replicate n 0) := by
  unfold moving_average_predict
  by_cases h : (List.replicate n c).length < w
  · rw [if_pos h]
    simp
  · rw [if_neg h, Prod.mk.injEq]
    constructor
    · rw [List.eq_replicate_iff]
      refine ⟨by simp, fun b hb => ?_⟩
      obtain ⟨i, hi, rfl⟩ := List.mem_map.mp hb
      have hi' : i < n := by simpa using List.mem_range.mp hi
      rw [maZ_replicate sqrtf w n c hw i hi']
      exact decide_eq_false (not_lt.mpr hthr)
    · rw [List.eq_replicate_iff]
      refine ⟨by simp, fun b hb => ?_⟩
      obtain ⟨i, hi, rfl⟩ := List.mem_map.mp hb
      have hi' : i < n := by simpa using List.mem_range.mp hi
      rw [maZ_replicate sqrtf w n c hw i hi']
      norm_num [clip01]

/-! ### Grouping lemmas -/

theorem eventLE_trans (a b c : Event) :
    eventLE a b = true → eventLE b c = true → eventLE a c = true := by
  intro hab hbc
  simp only [eventLE, decide_eq_true_eq] at *
  exact le_trans hbc hab

theorem eventLE_total (a b : Event) :
    (eventLE a b || eventLE b a) = true := by
  simp only [eventLE, Bool.or_eq_true, decide_eq_true_eq]
  exact le_total b.priority a.priority

theorem foldl_groupStep_no_anomalies (window : ℚ) (metric : String) :
    ∀ (pts : List (ℚ × Bool × ℚ × ℚ)) (evs : List Event),
      (∀ p ∈ pts, p.2.1 = false) →
      pts.foldl (groupStep window metric) (evs, none) = (evs, none) := by
  intro pts
  induction pts with
  | nil => intro evs _; rfl
  | cons p ps ih =>
    intro evs h
    obtain ⟨ts, b, score, val⟩ := p
    have hb : b = false := h (ts, b, score, val) (List.mem_cons_self _ _)
    subst hb
    rw [List.foldl_cons]
    have hstep : groupStep window metric (evs, none) (ts, false, score, val) =
        (evs, none) := by
      simp [groupStep]
    rw [hstep]
    exact ih evs (fun q hq => h q (List.mem_cons_of_mem _ hq))

theorem raw_events_nil_of_no_anomalies (window : ℚ) (ts : List ℚ)
    (an : List Bool) (sc vl : List ℚ) (metric : String)
    (h : an.any id = false) :
    raw_events window ts an sc vl metric = [] := by
  have hall : ∀ p ∈ ts.zip (an.zip (sc.zip vl)), p.2.1 = false := by
    intro p hp
    obtain ⟨t, b, rest⟩ := p
    have h2 := (List.of_mem_zip hp).2
    have h3 := (List.of_mem_zip h2).1
    have h4 := List.any_eq_false.mp h b h3
    simpa using h4
  simp only [raw_events]
  rw [foldl_groupStep_no_anomalies window metric _ [] hall]
  rfl

/-! ### Grouping claim theorems -/

/-- C1: evaluating the code on two anomalous points merged into one event,
where the second point's score 9/10 strictly exceeds the event's previous
max score 1/2, shows that `peak_value` stays at the first point's value 10
even though the event's `max_score` 9/10 is attained at the point with value
20.  The guard `score > current_event["max_score"]` runs after `max_score`
has already been raised to `max(old, score)`, so it never fires and
`peak_value` is never updated in the extend branch — the claimed guarantee
fails on the code (the spec's own design notes flag this as a latent bug). -/
theorem C1_peak_value_code_behavior :
    group_anomalies 300 [0, 100] [true, true] [1/2, 9/10] [10, 20] "cpu" =
      [{ start_time := 0, end_time := 100, metric := "cpu", max_score := 9/10,
         anomaly_points := 2, peak_value := 10, timestamps := [0, 100],
         values := [10, 20], duration_seconds := 100,
         priority := 543/1000 }] := by
  have hraw : raw_events 300 [0, 100] [true, true] [1/2, 9/10] [10, 20] "cpu" =
      [{ start_time := 0, end_time := 100, metric := "cpu", max_score := 9/10,
         anomaly_points := 2, peak_value := 10, timestamps := [0, 100],
         values := [10, 20], duration_seconds := 100,
         priority := 543/1000 }] := by
    norm_num [raw_events, groupStep, newEvent, extendEvent, finalizeEvent,
      calculate_priority, round3, roundHalfEven, round_eq]
  have hgrp : group_anomalies 300 [0, 100] [true, true] [1/2, 9/10] [10, 20]
      "cpu" =
      (raw_events 300 [0, 100] [true, true] [1/2, 9/10] [10, 20]
        "cpu").mergeSort eventLE := by
    simp [group_anomalies]
  rw [hgrp, hraw, List.mergeSort_singleton]

/-- C2: in the scan loop, an anomalous point whose gap from the open event's
`end_time` is at most the window extends the open event (no new event), and
a gap strictly greater than the window closes the open event and opens a new
one; with window = 300 s, anomalous points at t = 0 and t = 200 produce
exactly one event, and anomalous points at t = 0 and t = 400 produce exactly
two. -/
theorem C2_window_gap_semantics :
    (∀ (window : ℚ) (metric : String) (events : List Event) (e : Event)
       (ts score val : ℚ), ts - e.end_time ≤ window →
      groupStep window metric (events, some e) (ts, true, score, val) =
        (events, some (extendEvent e ts score val))) ∧
    (∀ (window : ℚ) (metric : String) (events : List Event) (e : Event)
       (ts score val : ℚ), window < ts - e.end_time →
      groupStep window metric (events, some e) (ts, true, score, val) =
        (events ++ [e], some (newEvent metric ts score val))) ∧
    (group_anomalies 300 [0, 200] [true, true] [1, 1] [5, 5] "cpu").length = 1 ∧
    (group_anomalies 300 [0, 400] [true, true] [1, 1] [5, 5] "cpu").length = 2 := by
  refine ⟨fun window metric events e ts score val h => ?_,
    fun window metric events e ts score val h => ?_, ?_, ?_⟩
  · simp [groupStep, h]
  · simp [groupStep, not_le.mpr h]
  · simp only [group_anomalies]
    norm_num [raw_events, groupStep, newEvent, extendEvent]
  · simp only [group_anomalies]
    norm_num [raw_events, groupStep, newEvent, extendEvent]

/-- Witness for C2: the two gap cases of the scan step at concrete inputs
(gap 200 ≤ 300 extends; gap 400 > 300 closes and restarts). -/
theorem C2_window_gap_semantics_witness :
    groupStep 300 "cpu" ([], some (newEvent "cpu" 0 1 5)) (200, true, 1, 5) =
      ([], some (extendEvent (newEvent "cpu" 0 1 5) 200 1 5)) ∧
    groupStep 300 "cpu" ([], some (newEvent "cpu" 0 1 5)) (400, true, 1, 5) =
      ([newEvent "cpu" 0 1 5], some (newEvent "cpu" 400 1 5)) :=
  ⟨C2_window_gap_semantics.1 300 "cpu" [] (newEvent "cpu" 0 1 5) 200 1 5
      (by norm_num [newEvent]),
   C2_window_gap_semantics.2.1 300 "cpu" [] (newEvent "cpu" 0 1 5) 400 1 5
      (by norm_num [newEvent])⟩

/-- C7: the events returned by the grouper are sorted by priority in
non-increasing order, and any two events of equal priority keep their
original chronological (construction) order — the sort is stable. -/
theorem C7_events_sorted_and_stable :
    ∀ (window : ℚ) (timestamps : List ℚ) (anomalies : List Bool)
      (scores values : List ℚ) (metric : String),
      (group_anomalies window timestamps anomalies scores values
          metric).Pairwise (fun a b => b.priority ≤ a.priority) ∧
      (∀ e1 e2 : Event, e1.priority = e2.priority →
        List.Sublist [e1, e2]
          (raw_events window timestamps anomalies scores values metric) →
        List.Sublist [e1, e2]
          (group_anomalies window timestamps anomalies scores values
            metric)) := by
  intro window ts an sc vl metric
  by_cases h : an.any id = false
  · have hraw := raw_events_nil_of_no_anomalies window ts an sc vl metric h
    constructor
    · simp [group_anomalies, h]
    · intro e1 e2 _ hsub
      rw [hraw] at hsub
      have := List.sublist_nil.mp hsub
      simp at this
  · have h' : an.any id = true := by
      revert h; cases an.any id <;> simp
    have hgrp : group_anomalies window ts an sc vl metric =
        (raw_events window ts an sc vl metric).mergeSort eventLE := by
      simp [group_anomalies, h']
    constructor
    · rw [hgrp]
      exact (List.sorted_mergeSort eventLE_trans eventLE_total
        (raw_events window ts an sc vl metric)).imp
        (fun hab => by simpa [eventLE] using hab)
    · intro e1 e2 hpr hsub
      have hab : eventLE e1 e2 = true := by
        simp [eventLE, hpr]
      rw [hgrp]
      exact List.pair_sublist_mergeSort eventLE_trans eventLE_total hab hsub

/-- Witness for C7: two equal-priority events (single anomalous points at
t = 0 and t = 400, equal scores) stay in chronological order in the output. -/
theorem C7_events_sorted_and_stable_witness :
    List.Sublist
      [({ start_time := 0, end_time := 0, metric := "web", max_score := 1,
          anomaly_points := 1, peak_value := 5, timestamps := [0],
          values := [5], duration_seconds := 0, priority := 53/100 } : Event),
       { start_time := 400, end_time := 400, metric := "web", max_score := 1,
         anomaly_points := 1, peak_value := 5, timestamps := [400],
         values := [5], duration_seconds := 0, priority := 53/100 }]
      (group_anomalies 300 [0, 400] [true, true] [1, 1] [5, 5] "web") := by
  have hraw : raw_events 300 [0, 400] [true, true] [1, 1] [5, 5] "web" =
      [{ start_time := 0, end_time := 0, metric := "web", max_score := 1,
         anomaly_points := 1, peak_value := 5, timestamps := [0], values := [5],
         duration_seconds := 0, priority := 53/100 },
       { start_time := 400, end_time := 400, metric := "web", max_score := 1,
         anomaly_points := 1, peak_value := 5, timestamps := [400],
         values := [5], duration_seconds := 0, priority := 53/100 }] := by
    norm_num [raw_events, groupStep, newEvent, extendEvent, finalizeEvent,
      calculate_priority, round3, roundHalfEven, round_eq]
  exact (C7_events_sorted_and_stable 300 [0, 400] [true, true] [1, 1] [5, 5]
    "web").2 _ _ rfl (hraw ▸ List.Sublist.refl _)

/-- C8: the windowed (rolling) scorer never flags any of the first
`window_size` points and gives them score 0, whatever their values; and an
input shorter than the window comes back all-normal (no flags, all
scores 0). -/
theorem C8_cold_start :
    ∀ (sqrtf : ℚ → ℚ) (w : ℕ) (threshold : ℚ), 0 ≤ threshold →
      ∀ (X : List ℚ),
        (∀ i, i < w → i < X.length →
          (moving_average_predict sqrtf w threshold X).1.getD i true = false ∧
          (moving_average_predict sqrtf w threshold X).2.getD i 1 = 0) ∧
        (X.length < w →
          moving_average_predict sqrtf w threshold X =
            (List.replicate X.length false, List.replicate X.length 0)) := by
  intro sqrtf w thr hthr X
  constructor
  · intro i hiw hilen
    by_cases hlen : X.length < w
    · rw [show moving_average_predict sqrtf w thr X =
          (List.replicate X.length false, List.replicate X.length 0) from
          by unfold moving_average_predict; rw [if_pos hlen]]
      constructor
      · rw [List.getD_eq_getElem _ _ (by simpa using hilen)]
        exact List.getElem_replicate _ _
      · rw [List.getD_eq_getElem _ _ (by simpa using hilen)]
        exact List.getElem_replicate _ _
    · have hz : maZ sqrtf w X i = 0 := by
        unfold maZ
        rw [if_pos hiw]
      rw [show moving_average_predict sqrtf w thr X =
          ((List.range X.length).map
             (fun i => decide (maZ sqrtf w X i > thr)),
           (List.range X.length).map
             (fun i => clip01 (maZ sqrtf w X i / (thr * 2)))) from
          by unfold moving_average_predict; rw [if_neg hlen]]
      constructor
      · rw [List.getD_eq_getElem _ _ (by simpa using hilen)]
        rw [List.getElem_map]
        simp only [List.getElem_range]
        rw [hz]
        exact decide_eq_false (not_lt.mpr hthr)
      · rw [List.getD_eq_getElem _ _ (by simpa using hilen)]
        rw [List.getElem_map]
        simp only [List.getElem_range]
        rw [hz]
        norm_num [clip01]
  · intro hshort
    unfold moving_average_predict
    rw [if_pos hshort]

/-- Witness for C8 at `w = 10`, `threshold = 3`, on a 4-point series with a
wild first value: index 0 is not flagged and scores 0, and the whole series
(shorter than the window) comes back all-normal. -/
theorem C8_cold_start_witness :
    (moving_average_predict (fun q => q) 10 3
        [1000000, -50, 3, 7]).1.getD 0 true = false ∧
    (moving_average_predict (fun q => q) 10 3
        [1000000, -50, 3, 7]).2.getD 0 1 = 0 ∧
    moving_average_predict (fun q => q) 10 3 [1000000, -50, 3, 7] =
      (List.replicate 4 false, List.replicate 4 0) := by
  have h := C8_cold_start (fun q => q) 10 3 (by norm_num)
    [1000000, -50, 3, 7]
  have h1 := h.1 0 (by norm_num) (by norm_num)
  exact ⟨h1.1, h1.2, h.2 (by norm_num)⟩

/-- C9: on every constant-valued series both the global z-score scorer and
the windowed scorer report no anomalies and give every point score 0; for
the z-score scorer this is the degenerate branch `std = 0`. -/
theorem C9_constant_series :
    ∀ (sqrtf : ℚ → ℚ), sqrtf 0 = 0 →
      ∀ (threshold : ℚ), 0 ≤ threshold →
        ∀ (n : ℕ) (c : ℚ),
          zscore_predict sqrtf threshold (List.replicate n c) =
            (List.replicate n false, List.replicate n 0) ∧
          (∀ w : ℕ, 0 < w →
            moving_average_predict sqrtf w threshold (List.replicate n c) =
              (List.replicate n false, List.replicate n 0)) := by
  intro sqrtf hs thr hthr n c
  constructor
  · unfold zscore_predict
    rw [listVarP_replicate, hs]
    simp
  · intro w hw
    exact ma_predict_replicate sqrtf w thr hthr hw n c

/-- Witness for C9 on the constant series of five points of value 42, with
the z-score threshold 3 and window 10. -/
theorem C9_constant_series_witness :
    zscore_predict (fun _ => 0) 3 (List.replicate 5 42) =
      (List.replicate 5 false, List.replicate 5 0) ∧
    moving_average_predict (fun _ => 0) 10 3 (List.replicate 5 42) =
      (List.replicate 5 false, List.replicate 5 0) := by
  have h := C9_constant_series (fun _ => 0) rfl 3 (by norm_num) 5 42
  exact ⟨h.1, h.2 10 (by norm_num)⟩

end AIOps
